import Mathlib

/-
  Verification development for fragments of a desktop code editor workbench:
  - the macOS "install to PATH" shell-integration action (InstallAction),
  - the debug variable-hover content widget (DebugHoverWidget),
  - the language-mode registry service (ModeServiceImpl),
  - the declarative rich-edit tables of the JavaScript language mode (JSMode).

  The embedding is shallow: fallible filesystem operations are passed in as
  explicit per-call results (an oracle environment), promise chains are
  modelled by explicit sequencing (WinJS-style promises resolve their `then`
  continuations synchronously once completed), and observable side effects
  (messages shown, filesystem calls attempted, decorations changed) are
  returned as explicit event lists.
-/

namespace VSCode

/-! ### JavaScript string primitives used by the source -/

/-- Whether `p` is a prefix of `s` (on character lists). -/
def isPrefixL : List Char → List Char → Bool
  | [], _ => true
  | _ :: _, [] => false
  | a :: as, b :: bs => a = b && isPrefixL as bs

/-- First index (from `i`) at which `p` occurs in `s`, on character lists. -/
def firstIndexL (p : List Char) : List Char → Nat → Option Nat
  | [], i => if isPrefixL p [] then some i else none
  | c :: rest, i => if isPrefixL p (c :: rest) then some i else firstIndexL p rest (i + 1)

/-- JavaScript `s.indexOf(pat)`: first index of `pat` in `s`, `-1` when absent
(`0` for the empty pattern). -/
def jsIndexOf (s pat : String) : Int :=
  match firstIndexL pat.data s.data 0 with
  | some i => (i : Int)
  | none => -1

/-- JavaScript `s.indexOf(pat) > -1`: substring containment test. -/
def jsContains (s pat : String) : Bool :=
  decide (0 ≤ jsIndexOf s pat)

/-! ### InstallAction / UninstallAction (macOS command-line shortcut)

Filesystem and child-process calls are fallible; the outcome of each call is an
explicit `Except String` value in the environment, the `String` being the
error `code` property (`ENOENT`, `EACCES`, ...) that the source branches
on. -/

namespace Install

/-- Observable actions `InstallAction.run` performs, in order. -/
inductive InstallEvent
  | warnLegacy (file : String)
  | unlinkTarget (path : String)
  | symlinkTarget (src dst : String)
  | mkdirAdmin
  | infoSuccess
deriving DecidableEq, Repr

/-- A rejection escaping `InstallAction.run`: either a filesystem error, by its
code, or the wrapped error produced by `createBinFolder`. -/
inductive InstallError
  | fs (code : String)
  | cantCreateBinFolder
deriving DecidableEq, Repr

/-- Per-call outcomes of the fallible operations `InstallAction` performs,
together with the configuration it reads. `read1..read3` are the three shell
profile reads of `checkLegacy`; `unlink1/symlink1` the first `createSymlink`
attempt, `unlink2/symlink2` the retry after `createBinFolder`. -/
structure InstallEnv where
  home : String
  bundleId : String
  applicationName : String
  sourcePath : String
  isAvailable : Bool
  read1 : Except String String
  read2 : Except String String
  read3 : Except String String
  lstatIsSymlink : Except String Bool
  readlinkRes : Except String String
  unlink1 : Except String Unit
  symlink1 : Except String Unit
  mkdirOk : Bool
  unlink2 : Except String Unit
  symlink2 : Except String Unit

/-- `ignore(code, value)` from the source: an error handler that converts an
error whose `code` matches into a success with `value` and re-raises any other
error. Applied here to the result of the preceding promise. -/
def ignoreCode {T : Type} (code : String) (value : T) : Except String T → Except String T
  | .error e => if e = code then .ok value else .error e
  | .ok v => .ok v

/-- `this.target`: `/usr/local/bin/<applicationName>`. -/
def target (env : InstallEnv) : String :=
  "/usr/local/bin/" ++ env.applicationName

/-- The three shell profile paths `checkLegacy` reads, in source order. -/
def legacyFiles (home : String) : List String :=
  [home ++ "/.bash_profile", home ++ "/.bashrc", home ++ "/.zshrc"]

/-- `InstallAction.checkLegacy`: read the three profile files (a missing file
reads as the empty string), and keep, in order, the paths whose contents
contain the configured `darwinBundleIdentifier`. -/
def checkLegacy (env : InstallEnv) : Except String (List String) :=
  match ignoreCode "ENOENT" "" env.read1 with
  | .error e => .error e
  | .ok c1 =>
    match ignoreCode "ENOENT" "" env.read2 with
    | .error e => .error e
    | .ok c2 =>
      match ignoreCode "ENOENT" "" env.read3 with
      | .error e => .error e
      | .ok c3 =>
        .ok (((legacyFiles env.home).zip [c1, c2, c3]).foldl
          (fun acc fc => if jsContains fc.2 env.bundleId then acc ++ [fc.1] else acc) [])

/-- `InstallAction.isInstalled`: `lstat` the target, read the link and compare
it with the bundled source path; an `ENOENT` anywhere yields `false`. (The
`isSymbolicLink` result is discarded by the `.then(() => ...)` in the source.) -/
def isInstalled (env : InstallEnv) : Except String Bool :=
  ignoreCode "ENOENT" false
    (match env.lstatIsSymlink with
     | .error e => .error e
     | .ok _ =>
       match env.readlinkRes with
       | .error e => .error e
       | .ok link => .ok (link == env.sourcePath))

/-- The `createSymlink` closure in `InstallAction.run`: unlink the target
(ignoring `ENOENT`), then, if that succeeded, symlink the bundled source to the
target. Returns the outcome of the chain and the filesystem calls attempted. -/
def createSymlink (env : InstallEnv) (unlinkRes symlinkRes : Except String Unit) :
    Except String Unit × List InstallEvent :=
  match ignoreCode "ENOENT" () unlinkRes with
  | .error e => (.error e, [.unlinkTarget (target env)])
  | .ok _ => (symlinkRes, [.unlinkTarget (target env), .symlinkTarget env.sourcePath (target env)])

/-- `InstallAction.run`: warn and stop when `checkLegacy` finds legacy
aliases; otherwise, when the bundled source is available and the shortcut is
not yet installed, attempt `createSymlink`, retrying exactly once after
`createBinFolder` when the first attempt fails with `EACCES` or `ENOENT`;
finally show the success message. -/
def run (env : InstallEnv) : Except InstallError Unit × List InstallEvent :=
  match checkLegacy env with
  | .error e => (.error (.fs e), [])
  | .ok files =>
    match files with
    | file :: _ => (.ok (), [.warnLegacy file])
    | [] =>
      match isInstalled env with
      | .error e => (.error (.fs e), [])
      | .ok installed =>
        if !env.isAvailable || installed then (.ok (), [.infoSuccess])
        else
          match createSymlink env env.unlink1 env.symlink1 with
          | (.ok _, ev1) => (.ok (), ev1 ++ [.infoSuccess])
          | (.error e, ev1) =>
            if e = "EACCES" ∨ e = "ENOENT" then
              if env.mkdirOk then
                match createSymlink env env.unlink2 env.symlink2 with
                | (.ok _, ev2) => (.ok (), ev1 ++ [.mkdirAdmin] ++ ev2 ++ [.infoSuccess])
                | (.error e2, ev2) => (.error (.fs e2), ev1 ++ [.mkdirAdmin] ++ ev2)
              else (.error .cantCreateBinFolder, ev1 ++ [.mkdirAdmin])
            else (.error (.fs e), ev1)

end Install

/-! ### DebugHoverWidget (debug variable hover content widget)

The mutable fields of the widget (`isVisible`, `showAtPosition`,
`highlightDecorations`) are the state; calls into the editor
(`deltaDecorations`, `layoutContentWidget`) are returned as events. The
asynchronous `getExpression` lookup against the debug session is an input:
its resolved value (or absence) is part of the hover environment. -/

namespace Hover

/-- A text position inside the editor. -/
structure Position where
  lineNumber : Nat
  column : Nat
deriving DecidableEq, Repr

/-- The slice of a debug expression the widget inspects. -/
structure Expression where
  available : Bool
  reference : Nat
deriving DecidableEq, Repr

/-- One editor decoration, as built by `showAt`. -/
structure Decoration where
  startLineNumber : Nat
  endLineNumber : Nat
  startColumn : Int
  endColumn : Int
  className : String
deriving DecidableEq, Repr

/-- The mutable state of the widget. -/
structure HoverWidget where
  isVisible : Bool
  showAtPosition : Option Position
  highlightDecorations : List Decoration
deriving DecidableEq, Repr

/-- The widget state right after the constructor ran. -/
def initialWidget : HoverWidget :=
  { isVisible := false, showAtPosition := none, highlightDecorations := [] }

/-- Editor calls the widget makes. -/
inductive WidgetEvent
  | deltaDecorations
  | layoutContentWidget
deriving DecidableEq, Repr

/-- What `showAt` reads from its surroundings: the source URI of the focused stack
frame (when one is focused), the associated resource URI of the editor model
and line content, and the outcome of the asynchronous `getExpression`. -/
structure HoverEnv where
  focusedFrameUri : Option String
  modelUri : String
  lineContent : String
  resolved : Option Expression
deriving DecidableEq, Repr

/-- `ContentWidgetPositionPreference`. -/
inductive PositionPreference
  | above
  | below
deriving DecidableEq, Repr

/-- `DebugHoverWidget.doShow`: record the position, mark the widget visible,
and relayout (the tree/value rendering itself is DOM work outside the model). -/
def doShow (w : HoverWidget) (pos : Position) (_e : Expression) :
    HoverWidget × List WidgetEvent :=
  ({ w with showAtPosition := some pos, isVisible := true },
   [WidgetEvent.layoutContentWidget])

/-- `DebugHoverWidget.hide`: a no-op when already not visible; otherwise clear
visibility and all highlight decorations and relayout. -/
def hide (w : HoverWidget) : HoverWidget × List WidgetEvent :=
  if !w.isVisible then (w, [])
  else
    ({ w with isVisible := false, highlightDecorations := [] },
     [WidgetEvent.deltaDecorations, WidgetEvent.layoutContentWidget])

/-- `DebugHoverWidget.showAt`: return immediately when the hovered word is
empty, no stack frame is focused, or the source URI of the focused frame
differs from the resource of the model; hide when the resolved expression is missing or not
available; otherwise replace the decoration set with the single
`hoverHighlight` decoration over the hovered word and show at the position. -/
def showAt (w : HoverWidget) (env : HoverEnv) (pos : Position) (hoveringOver : String) :
    HoverWidget × List WidgetEvent :=
  if hoveringOver = "" then (w, [])
  else
    match env.focusedFrameUri with
    | none => (w, [])
    | some uri =>
      if uri ≠ env.modelUri then (w, [])
      else
        match env.resolved with
        | none => hide w
        | some e =>
          if !e.available then hide w
          else
            let w1 : HoverWidget :=
              { w with highlightDecorations := [{
                  startLineNumber := pos.lineNumber,
                  endLineNumber := pos.lineNumber,
                  startColumn := jsIndexOf env.lineContent hoveringOver + 1,
                  endColumn := jsIndexOf env.lineContent hoveringOver + 1 + (hoveringOver.length : Int),
                  className := "hoverHighlight" }] }
            let (w2, evs) := doShow w1 pos e
            (w2, WidgetEvent.deltaDecorations :: evs)

/-- `DebugHoverWidget.getPosition`: the stored position with preference
`[ABOVE, BELOW]` when visible, `null` otherwise. -/
def getPosition (w : HoverWidget) : Option (Option Position × List PositionPreference) :=
  if w.isVisible then some (w.showAtPosition, [PositionPreference.above, PositionPreference.below])
  else none

end Hover

/-! ### ModeServiceImpl (language-mode registry service)

The four maps of the service are association lists (JavaScript object maps with
`hasOwnProperty` lookup, assignment and `delete`). Promises are modelled by
ids: a `_getOrCreateMode` call either yields an already-completed promise
carrying a mode (`resolved`) or a pending activation promise (`pending`).
WinJS promises run `then` continuations synchronously once completed, so the
Frankenstein branch of `_createMode` — which returns `TPromise.as(mode)` —
commits the mode to `_instantiatedModes` and removes the activation-promise
entry before `_getOrCreateMode` returns. The compat branch completes only
when the external plugin host answers, modelled by `completeActivation`.
`LanguageExtensions` lookups (mode-id extraction, compat-mode data) live
outside the provided sources and are passed in as parameters. -/

namespace ModeService

/-- A mode instance held by the service. `instanceNum` is the creation-time
identity of the object; `hasRegisterSupport` distinguishes Frankenstein modes
(which expose `registerSupport`) from other modes; `supports` lists the
support fragments registered on the mode so far. -/
structure Mode where
  modeId : String
  instanceNum : Nat
  hasRegisterSupport : Bool
  hasConfigSupport : Bool
  supports : List String
deriving DecidableEq, Repr

/-- Lookup in a JavaScript object map (`hasOwnProperty` / property read). -/
def lookupA {V : Type} : List (String × V) → String → Option V
  | [], _ => none
  | (k1, v) :: rest, k => if k1 = k then some v else lookupA rest k

/-- Property assignment `m[k] = v`. -/
def setA {V : Type} : List (String × V) → String → V → List (String × V)
  | [], k, v => [(k, v)]
  | (k1, v1) :: rest, k, v =>
    if k1 = k then (k1, v) :: rest else (k1, v1) :: setA rest k v

/-- Property removal `delete m[k]`. -/
def eraseA {V : Type} : List (String × V) → String → List (String × V)
  | [], _ => []
  | (k1, v1) :: rest, k => if k1 = k then rest else (k1, v1) :: eraseA rest k

/-- Modelled from the spec: `Objects.mixin` (vs/base/common/objects, not in
the provided sources) merges the properties of the source object over the
destination; `configureModeById` applies it to a fresh clone of the previous
options. -/
def mixin {V : Type} (dst src : List (String × V)) : List (String × V) :=
  src.foldl (fun d kv => setA d kv.1 kv.2) dst

/-- The keys of an object map. -/
def keysA {V : Type} (m : List (String × V)) : List String :=
  m.map Prod.fst

/-- Modelled from the spec: `Objects.equals` (vs/base/common/objects, not in
the provided sources) compares two objects by their properties: every key of
either object maps to equal values in both. -/
def equalsA {V : Type} [DecidableEq V] (a b : List (String × V)) : Bool :=
  (keysA a ++ keysA b).all (fun k => decide (lookupA a k = lookupA b k))

/-- The whole service state: the four maps of `ModeServiceImpl` plus fresh-id
counters for promises and mode instances. `V` is the type of a single
configuration property value. -/
structure ModeServiceState (V : Type) where
  activationPromises : List (String × Nat)
  instantiatedModes : List (String × Mode)
  frankensteinModes : List (String × Mode)
  config : List (String × List (String × V))
  nextPromiseId : Nat
  nextInstanceNum : Nat
deriving DecidableEq, Repr

/-- The state built by the constructor: all four maps empty. -/
def initialState (V : Type) : ModeServiceState V :=
  { activationPromises := [], instantiatedModes := [], frankensteinModes := [],
    config := [], nextPromiseId := 0, nextInstanceNum := 0 }

/-- What a `_getOrCreateMode` caller receives: a promise already completed
with a mode, or a pending activation promise identified by id. -/
inductive ModeResult
  | resolved (m : Mode)
  | pending (p : Nat)
deriving DecidableEq, Repr

/-- What `_createMode` produces: a synchronously available Frankenstein mode
(`TPromise.as`), or a pending compat-mode instantiation awaiting the plugin
host. -/
inductive CreateModeResult
  | immediate (m : Mode)
  | asyncCompat
deriving DecidableEq, Repr

/-- `ModeServiceImpl._getOrCreateFrankensteinMode`: return the cached
Frankenstein mode for the id, creating and caching a fresh instance on first
request. -/
def getOrCreateFrankensteinMode {V : Type} (st : ModeServiceState V) (modeId : String) :
    Mode × ModeServiceState V :=
  match lookupA st.frankensteinModes modeId with
  | some m => (m, st)
  | none =>
    let m : Mode :=
      { modeId := modeId, instanceNum := st.nextInstanceNum,
        hasRegisterSupport := true, hasConfigSupport := false, supports := [] }
    (m, { st with nextInstanceNum := st.nextInstanceNum + 1,
                  frankensteinModes := setA st.frankensteinModes modeId m })

/-- `ModeServiceImpl._createMode`. `reg modeId` is whether
`LanguageExtensions.getCompatMode` has compat-mode data for the id: with
compat data the mode is instantiated through the plugin host asynchronously;
without it the per-id Frankenstein mode is returned, already resolved. -/
def createMode {V : Type} (reg : String → Bool) (st : ModeServiceState V) (modeId : String) :
    CreateModeResult × ModeServiceState V :=
  if reg modeId then (.asyncCompat, st)
  else
    let fm := getOrCreateFrankensteinMode st modeId
    (.immediate fm.1, fm.2)

/-- `ModeServiceImpl._getOrCreateMode`: an instantiated mode is returned from
the cache; a pending activation returns the stored pending promise; otherwise
a fresh promise is registered and `_createMode` runs — its Frankenstein
branch resolves synchronously, committing the instance and dropping the
activation entry. -/
def getOrCreateModeById {V : Type} (reg : String → Bool) (st : ModeServiceState V)
    (modeId : String) : ModeResult × ModeServiceState V :=
  match lookupA st.instantiatedModes modeId with
  | some m => (.resolved m, st)
  | none =>
    match lookupA st.activationPromises modeId with
    | some p => (.pending p, st)
    | none =>
      let p := st.nextPromiseId
      let st1 : ModeServiceState V :=
        { st with nextPromiseId := p + 1,
                  activationPromises := setA st.activationPromises modeId p }
      match createMode reg st1 modeId with
      | (.asyncCompat, st2) => (.pending p, st2)
      | (.immediate m, st2) =>
        (.resolved m,
         { st2 with instantiatedModes := setA st2.instantiatedModes modeId m,
                    activationPromises := eraseA st2.activationPromises modeId })

/-- The compat-mode activation answer arriving from the plugin host: the
continuation in `_getOrCreateMode` stores the instance and deletes the
activation promise (after the `_createMode` chain configured the
`configSupport` of the mode when present). -/
def completeActivation {V : Type} (st : ModeServiceState V) (modeId : String) (m : Mode) :
    ModeServiceState V × List (String × List (String × V)) :=
  ({ st with instantiatedModes := setA st.instantiatedModes modeId m,
             activationPromises := eraseA st.activationPromises modeId },
   if m.hasConfigSupport then [(modeId, (lookupA st.config modeId).getD [])] else [])

/-- `ModeServiceImpl.getModeId`: the first extracted mode id, or `null`. -/
def getModeId (extract : String → List String) (s : String) : Option String :=
  (extract s).head?

/-- The JavaScript fallback of `modeId` to `plaintext` applied to the
`getModeId` result: `null` and the empty string are both falsy. -/
def effectiveModeId (extract : String → List String) (s : String) : String :=
  match getModeId extract s with
  | none => "plaintext"
  | some id => if id = "" then "plaintext" else id

/-- `ModeServiceImpl.getOrCreateMode`: once the plugin host is ready, create
the mode for the extracted id, falling back to plain text. -/
def getOrCreateMode {V : Type} (reg : String → Bool) (extract : String → List String)
    (st : ModeServiceState V) (s : String) : ModeResult × ModeServiceState V :=
  getOrCreateModeById reg st (effectiveModeId extract s)

/-- `ModeServiceImpl.getOrCreateModeByLanguageName`, with
`LanguageExtensions.getModeIdsFromLanguageName` passed in as `byLang`. -/
def getOrCreateModeByLanguageName {V : Type} (reg : String → Bool)
    (byLang : String → List String) (st : ModeServiceState V) (languageName : String) :
    ModeResult × ModeServiceState V :=
  getOrCreateModeById reg st (effectiveModeId byLang languageName)

/-- `ModeServiceImpl.getOrCreateModeByFilenameOrFirstLine`, with
`LanguageExtensions.getModeIdsFromFilenameOrFirstLine` (at a fixed first
line) passed in as `byFile`. -/
def getOrCreateModeByFilenameOrFirstLine {V : Type} (reg : String → Bool)
    (byFile : String → List String) (st : ModeServiceState V) (filename : String) :
    ModeResult × ModeServiceState V :=
  getOrCreateModeById reg st (effectiveModeId byFile filename)

/-- The loop in `ModeServiceImpl.getMode`: the first extracted id that is
already instantiated. -/
def findFirstInstantiated {V : Type} (st : ModeServiceState V) : List String → Option Mode
  | [] => none
  | id :: rest =>
    match lookupA st.instantiatedModes id with
    | some m => some m
    | none => findFirstInstantiated st rest

/-- `ModeServiceImpl.getMode`: return the first instantiated mode among the
extracted ids; otherwise, when one of the ids is `plaintext`, run
`getOrCreateMode` and capture its value only if it resolved synchronously;
otherwise return `undefined`. -/
def getMode {V : Type} (reg : String → Bool) (extract : String → List String)
    (st : ModeServiceState V) (s : String) : Option Mode × ModeServiceState V :=
  let modeIds := extract s
  match findFirstInstantiated st modeIds with
  | some m => (some m, st)
  | none =>
    if modeIds.contains "plaintext" then
      match getOrCreateMode reg extract st s with
      | (.resolved m, st1) => (some m, st1)
      | (.pending _, st1) => (none, st1)
    else (none, st)

/-- `ModeServiceImpl.configureModeById`: merge the options over the stored
ones; when nothing changed the call is a no-op, otherwise store the merged
options and, when the mode exists and has a `configSupport`, invoke
`configure` with the full configuration of the mode. The returned list records the
`configSupport.configure` invocations. -/
def configureModeById {V : Type} [DecidableEq V] (reg : String → Bool)
    (extract : String → List String) (st : ModeServiceState V) (modeId : String)
    (options : List (String × V)) :
    ModeServiceState V × List (String × List (String × V)) :=
  let previousOptions := (lookupA st.config modeId).getD []
  let newOptions := mixin previousOptions options
  if equalsA previousOptions newOptions then (st, [])
  else
    let st1 : ModeServiceState V := { st with config := setA st.config modeId newOptions }
    match getMode reg extract st1 modeId with
    | (some mode, st2) =>
      if mode.hasConfigSupport then (st2, [(modeId, (lookupA st2.config modeId).getD [])])
      else (st2, [])
    | (none, st2) => (st2, [])

/-- Option fallback (`o` when present, otherwise `d`), used to state how
`mixin` resolves lookups. -/
def orElseO {V : Type} (o d : Option V) : Option V :=
  match o with
  | some v => some v
  | none => d

/-- The last binding of `k` in the property list `s` (later `mixin` writes
win). -/
def lastBinding {V : Type} (s : List (String × V)) (k : String) : Option V :=
  s.foldl (fun acc kv => if kv.1 = k then some kv.2 else acc) none

/-- A disposable returned by `registerModeSupport`: the empty disposable, or
one tied to a registered support fragment. -/
inductive Disposable
  | empty
  | fragment (support : String)
deriving DecidableEq, Repr

/-- The continuation of `ModeServiceImpl.registerModeSupport` once the mode
promise resolves: dispatch on the presence of `registerSupport`, returning
the empty disposable (and touching nothing) when it is absent. Modelled from
the spec: `FrankensteinMode.registerSupport`
(vs/editor/common/modes/abstractMode, not in the provided sources) attaches
the single given support fragment to the mode. -/
def registerSupportOnMode (m : Mode) (support : String) : Mode × Disposable :=
  if m.hasRegisterSupport then
    ({ m with supports := m.supports ++ [support] }, .fragment support)
  else (m, .empty)

end ModeService

/-! ### JSMode (JavaScript language mode)

The rich-edit support the `JSMode` constructor wires up is a declarative
table; regular expressions are embedded by their source text. -/

namespace JSModeDef

/-- The comment configuration of a rich-edit support table. -/
structure CommentRule where
  lineComment : String
  blockComment : String × String
deriving DecidableEq, Repr

/-- `Modes.IndentAction`. -/
inductive IndentAction
  | None
  | Indent
  | IndentOutdent
  | Outdent
deriving DecidableEq, Repr

/-- The action part of an on-enter rule. -/
structure EnterAction where
  indentAction : IndentAction
  appendText : Option String
  removeText : Option Nat
deriving DecidableEq, Repr

/-- One on-enter rule: regex sources for the text before (and optionally
after) the cursor, and the action taken. -/
structure OnEnterRule where
  beforeText : String
  afterText : Option String
  action : EnterAction
deriving DecidableEq, Repr

/-- One electric-bracket entry of `__electricCharacterSupport`. -/
structure ElectricBracket where
  tokenType : String
  openText : String
  closeText : String
  isElectric : Bool
deriving DecidableEq, Repr

/-- The `docComment` entry of `__electricCharacterSupport`. -/
structure DocComment where
  scope : String
  openText : String
  lineStart : String
  closeText : String
deriving DecidableEq, Repr

/-- One auto-closing pair of `__characterPairSupport`; `notIn` lists the
token-type standard classifications in which the pair is disabled. -/
structure AutoClosingPair where
  openText : String
  closeText : String
  notIn : List String
deriving DecidableEq, Repr

/-- A rich-edit configuration as handed to `RichEditSupport`. `wordPattern`
keeps the extra character argument passed to `createWordRegExp`. -/
structure RichEditConfiguration where
  wordPatternExtra : String
  comments : CommentRule
  brackets : List (String × String)
  onEnterRules : List OnEnterRule
  electricBrackets : List ElectricBracket
  docComment : DocComment
  autoClosingPairs : List AutoClosingPair
deriving DecidableEq, Repr

/-- The rich-edit configuration object built in the `JSMode` constructor. -/
def jsRichEditConfig : RichEditConfiguration :=
  { wordPatternExtra := "$",
    comments := { lineComment := "//", blockComment := ("/*", "*/") },
    brackets := [("\x7b", "\x7d"), ("[", "]"), ("(", ")")],
    onEnterRules := [
      { beforeText := "^\\s*/\\*\\*(?!/)([^\\*]|\\*(?!/))*$",
        afterText := some "^\\s*\\*/$",
        action := { indentAction := .IndentOutdent, appendText := some " * ",
                    removeText := none } },
      { beforeText := "^\\s*/\\*\\*(?!/)([^\\*]|\\*(?!/))*$",
        afterText := none,
        action := { indentAction := .None, appendText := some " * ",
                    removeText := none } },
      { beforeText := "^(\\t|(\\ \\ ))*\\ \\*(\\ ([^\\*]|\\*(?!/))*)?$",
        afterText := none,
        action := { indentAction := .None, appendText := some "* ",
                    removeText := none } },
      { beforeText := "^(\\t|(\\ \\ ))*\\ \\*/\\s*$",
        afterText := none,
        action := { indentAction := .None, appendText := none,
                    removeText := some 1 } }],
    electricBrackets := [
      { tokenType := "delimiter.bracket.js", openText := "\x7b", closeText := "\x7d",
        isElectric := true },
      { tokenType := "delimiter.array.js", openText := "[", closeText := "]",
        isElectric := true },
      { tokenType := "delimiter.parenthesis.js", openText := "(", closeText := ")",
        isElectric := true }],
    docComment := { scope := "comment.doc", openText := "/**", lineStart := " * ",
                    closeText := " */" },
    autoClosingPairs := [
      { openText := "\x7b", closeText := "\x7d", notIn := [] },
      { openText := "[", closeText := "]", notIn := [] },
      { openText := "(", closeText := ")", notIn := [] },
      { openText := "\"", closeText := "\"", notIn := ["string"] },
      { openText := "\x27", closeText := "\x27", notIn := ["string", "comment"] }] }

end JSModeDef

/-! ### Helper lemmas about the object-map operations -/

namespace ModeService

theorem lookupA_setA {V : Type} (m : List (String × V)) (k k1 : String) (v : V) :
    lookupA (setA m k v) k1 = if k = k1 then some v else lookupA m k1 := by
  induction m with
  | nil => simp [setA, lookupA]
  | cons kv rest ih =>
    obtain ⟨k2, v2⟩ := kv
    by_cases h2 : k2 = k
    · subst h2
      by_cases h1 : k2 = k1 <;> simp [setA, lookupA, h1]
    · by_cases h1 : k2 = k1
      · subst h1
        have : ¬ k = k2 := fun h => h2 h.symm
        simp [setA, lookupA, h2, this]
      · simp [setA, lookupA, h1, h2, ih]

theorem lookupA_setA_self {V : Type} (m : List (String × V)) (k : String) (v : V) :
    lookupA (setA m k v) k = some v := by
  simp [lookupA_setA]

theorem lastBinding_foldl {V : Type} (s : List (String × V)) (k : String) (acc : Option V) :
    s.foldl (fun a kv => if kv.1 = k then some kv.2 else a) acc
      = orElseO (lastBinding s k) acc := by
  induction s generalizing acc with
  | nil => simp [lastBinding, orElseO]
  | cons kv t ih =>
    simp only [lastBinding, List.foldl_cons] at *
    rw [ih, ih]
    cases h : t.foldl (fun a kv => if kv.1 = k then some kv.2 else a) none <;>
      by_cases hk : kv.1 = k <;> simp [orElseO, hk, h] at * <;> simp_all [orElseO]

theorem lookupA_mixin {V : Type} (d s : List (String × V)) (k : String) :
    lookupA (mixin d s) k = orElseO (lastBinding s k) (lookupA d k) := by
  induction s generalizing d with
  | nil => simp [mixin, lastBinding, orElseO]
  | cons kv t ih =>
    simp only [mixin, List.foldl_cons] at *
    rw [ih, lookupA_setA]
    have hcons : lastBinding (kv :: t) k
        = orElseO (lastBinding t k) (if kv.1 = k then some kv.2 else none) := by
      simp only [lastBinding, List.foldl_cons]
      exact lastBinding_foldl t k _
    rw [hcons]
    cases h : lastBinding t k <;> by_cases hk : kv.1 = k <;> simp [orElseO, hk]

theorem mixin_lookup_idem {V : Type} (p o : List (String × V)) (k : String) :
    lookupA (mixin (mixin p o) o) k = lookupA (mixin p o) k := by
  rw [lookupA_mixin, lookupA_mixin]
  cases lastBinding o k <;> simp [orElseO]

theorem equalsA_of_ext {V : Type} [DecidableEq V] (a b : List (String × V))
    (h : ∀ k, lookupA a k = lookupA b k) : equalsA a b = true := by
  simp only [equalsA, List.all_eq_true]
  intro k _
  exact decide_eq_true (h k)

theorem frankenstein_config_preserved {V : Type} (st : ModeServiceState V)
    (id : String) : ((getOrCreateFrankensteinMode st id).2).config = st.config := by
  unfold getOrCreateFrankensteinMode
  cases lookupA st.frankensteinModes id <;> simp

theorem getOrCreateModeById_config {V : Type} (reg : String → Bool)
    (st : ModeServiceState V) (id : String) :
    ((getOrCreateModeById reg st id).2).config = st.config := by
  cases h1 : lookupA st.instantiatedModes id with
  | some m => simp [getOrCreateModeById, h1]
  | none =>
    cases h2 : lookupA st.activationPromises id with
    | some p => simp [getOrCreateModeById, h1, h2]
    | none =>
      by_cases hr : reg id
      · simp [getOrCreateModeById, h1, h2, createMode, hr]
      · simp [getOrCreateModeById, h1, h2, createMode, hr,
          frankenstein_config_preserved]

theorem getMode_config {V : Type} (reg : String → Bool)
    (extract : String → List String) (st : ModeServiceState V) (s : String) :
    ((getMode reg extract st s).2).config = st.config := by
  unfold getMode
  cases hf : findFirstInstantiated st (extract s) with
  | some m => simp [hf]
  | none =>
    by_cases hp : "plaintext" ∈ extract s
    · have hc : ((getOrCreateMode reg extract st s).2).config = st.config :=
        getOrCreateModeById_config reg st (effectiveModeId extract s)
      rcases hg : getOrCreateMode reg extract st s with ⟨r, st1⟩
      rw [hg] at hc
      cases r <;> simp_all
    · simp [hf, hp]

end ModeService

/-! ### The claims -/

namespace Claims

open Install Hover ModeService JSModeDef

/-- C8: the JSMode rich edit support is the fixed declarative table: line
comment `//`, block comment `/*`..`*/`, the three bracket pairs, exactly the
five auto-closing pairs (braces, square brackets, parentheses, double quote
not inside strings, single quote not inside strings or comments), and four
on-enter rules continuing JSDoc comments (indent-outdent appending ` * `
between `/**` and `*/`, appending ` * ` after `/**`, appending `* ` inside a
doc comment, and removing one character after ` */`). -/
theorem jsMode_richEdit_table :
    jsRichEditConfig.comments = { lineComment := "//", blockComment := ("/*", "*/") } ∧
    jsRichEditConfig.brackets = [("\x7b", "\x7d"), ("[", "]"), ("(", ")")] ∧
    jsRichEditConfig.autoClosingPairs =
      [{ openText := "\x7b", closeText := "\x7d", notIn := [] },
       { openText := "[", closeText := "]", notIn := [] },
       { openText := "(", closeText := ")", notIn := [] },
       { openText := "\"", closeText := "\"", notIn := ["string"] },
       { openText := "\x27", closeText := "\x27", notIn := ["string", "comment"] }] ∧
    jsRichEditConfig.onEnterRules.length = 4 ∧
    jsRichEditConfig.onEnterRules.map (fun r => r.action) =
      [{ indentAction := .IndentOutdent, appendText := some " * ", removeText := none },
       { indentAction := .None, appendText := some " * ", removeText := none },
       { indentAction := .None, appendText := some "* ", removeText := none },
       { indentAction := .None, appendText := none, removeText := some 1 }] :=
  ⟨rfl, rfl, rfl, rfl, rfl⟩

/-- C6: `DebugHoverWidget.getPosition` returns the stored show-at position
with preference `[ABOVE, BELOW]` exactly when the widget is visible, and
`null` when it is not; after `doShow` at a position the stored position is
that position. -/
theorem getPosition_visible (w : HoverWidget) (pos : Position) (e : Expression) :
    (w.isVisible = true →
       getPosition w = some (w.showAtPosition,
         [PositionPreference.above, PositionPreference.below])) ∧
    (w.isVisible = false → getPosition w = none) ∧
    getPosition (doShow w pos e).1 =
      some (some pos, [PositionPreference.above, PositionPreference.below]) := by
  refine ⟨fun h => ?_, fun h => ?_, ?_⟩
  · simp [getPosition, h]
  · simp [getPosition, h]
  · simp [getPosition, doShow]

/-- C6 witness. -/
theorem getPosition_visible_witness :
    getPosition { isVisible := true, showAtPosition := some ⟨3, 4⟩,
                  highlightDecorations := [] }
      = some (some ⟨3, 4⟩, [PositionPreference.above, PositionPreference.below]) :=
  (getPosition_visible
    { isVisible := true, showAtPosition := some ⟨3, 4⟩, highlightDecorations := [] }
    ⟨1, 1⟩ { available := true, reference := 0 }).1 rfl

/-- C4: `showAt` is a no-op (state unchanged, no editor calls) when the
hovered word is empty, no stack frame is focused, or the source URI of the
focused frame differs from the resource of the model; and when the resolved
expression is missing or not available it hides the widget instead of
showing it. -/
theorem showAt_guards (w : HoverWidget) (env : HoverEnv) (pos : Position)
    (hov : String) :
    (hov = "" → showAt w env pos hov = (w, [])) ∧
    (env.focusedFrameUri = none → showAt w env pos hov = (w, [])) ∧
    (∀ uri, env.focusedFrameUri = some uri → uri ≠ env.modelUri →
       showAt w env pos hov = (w, [])) ∧
    (hov ≠ "" → env.focusedFrameUri = some env.modelUri → env.resolved = none →
       showAt w env pos hov = hide w) ∧
    (∀ e, hov ≠ "" → env.focusedFrameUri = some env.modelUri →
       env.resolved = some e → e.available = false →
       showAt w env pos hov = hide w) := by
  refine ⟨fun h => ?_, fun h => ?_, fun uri h1 h2 => ?_, fun h1 h2 h3 => ?_,
          fun e h1 h2 h3 h4 => ?_⟩
  · simp [showAt, h]
  · by_cases hh : hov = "" <;> simp [showAt, h, hh]
  · by_cases hh : hov = "" <;> simp [showAt, h1, h2, hh]
  · simp [showAt, h1, h2, h3]
  · simp [showAt, h1, h2, h3, h4]

/-- C4 witness. -/
theorem showAt_guards_witness :
    showAt initialWidget
      { focusedFrameUri := none, modelUri := "file:a.js", lineContent := "x",
        resolved := none } ⟨1, 1⟩ "x" = (initialWidget, []) :=
  (showAt_guards initialWidget
    { focusedFrameUri := none, modelUri := "file:a.js", lineContent := "x",
      resolved := none } ⟨1, 1⟩ "x").2.1 rfl

/-- C7: a successful `showAt` replaces the decoration set with exactly one
`hoverHighlight` decoration spanning the hovered word on its line (start
column: first index of the word in the line content plus one; end column:
start column plus the word length); `hide` empties the decoration list when
the widget is visible, and is a complete no-op when it is not. -/
theorem showAt_decoration (w : HoverWidget) (env : HoverEnv) (pos : Position)
    (hov : String) (e : Expression) :
    (hov ≠ "" → env.focusedFrameUri = some env.modelUri → env.resolved = some e →
       e.available = true →
       (showAt w env pos hov).1.highlightDecorations =
         [{ startLineNumber := pos.lineNumber, endLineNumber := pos.lineNumber,
            startColumn := jsIndexOf env.lineContent hov + 1,
            endColumn := jsIndexOf env.lineContent hov + 1 + (hov.length : Int),
            className := "hoverHighlight" }]) ∧
    (w.isVisible = true →
       hide w = ({ w with isVisible := false, highlightDecorations := [] },
                 [WidgetEvent.deltaDecorations, WidgetEvent.layoutContentWidget])) ∧
    (w.isVisible = false → hide w = (w, [])) := by
  refine ⟨fun h1 h2 h3 h4 => ?_, fun h => ?_, fun h => ?_⟩
  · simp [showAt, h1, h2, h3, h4, doShow]
  · simp [hide, h]
  · simp [hide, h]

/-- C7 witness. -/
theorem showAt_decoration_witness :
    (showAt initialWidget
      { focusedFrameUri := some "file:a.js", modelUri := "file:a.js",
        lineContent := "var foo;", resolved := some { available := true, reference := 0 } }
      ⟨1, 5⟩ "foo").1.highlightDecorations =
      [{ startLineNumber := 1, endLineNumber := 1,
         startColumn := jsIndexOf "var foo;" "foo" + 1,
         endColumn := jsIndexOf "var foo;" "foo" + 1 + (3 : Int),
         className := "hoverHighlight" }] :=
  (showAt_decoration initialWidget
    { focusedFrameUri := some "file:a.js", modelUri := "file:a.js",
      lineContent := "var foo;", resolved := some { available := true, reference := 0 } }
    ⟨1, 5⟩ "foo" { available := true, reference := 0 }).1
    (by decide) rfl rfl rfl

/-- C3: `checkLegacy` reads exactly the three files `~/.bash_profile`,
`~/.bashrc` and `~/.zshrc`, treats a missing file (`ENOENT`) as empty
content, and returns, in that fixed order, the paths of exactly those files
whose contents contain the configured `darwinBundleIdentifier`; whenever the
list is non-empty, `run` shows the warning and returns without touching the
filesystem. -/
theorem checkLegacy_spec (env : InstallEnv) (c1 c2 c3 : String)
    (h1 : ignoreCode "ENOENT" "" env.read1 = .ok c1)
    (h2 : ignoreCode "ENOENT" "" env.read2 = .ok c2)
    (h3 : ignoreCode "ENOENT" "" env.read3 = .ok c3) :
    checkLegacy env = .ok
      ((if jsContains c1 env.bundleId then [env.home ++ "/.bash_profile"] else []) ++
       (if jsContains c2 env.bundleId then [env.home ++ "/.bashrc"] else []) ++
       (if jsContains c3 env.bundleId then [env.home ++ "/.zshrc"] else [])) ∧
    (env.read1 = .error "ENOENT" → c1 = "") ∧
    (∀ f rest, checkLegacy env = .ok (f :: rest) →
       run env = (.ok (), [InstallEvent.warnLegacy f])) := by
  refine ⟨?_, fun hr => ?_, fun f rest hc => ?_⟩
  · simp only [checkLegacy, h1, h2, h3, legacyFiles, List.zip, List.zipWith, List.foldl]
    by_cases p1 : jsContains c1 env.bundleId <;>
      by_cases p2 : jsContains c2 env.bundleId <;>
        by_cases p3 : jsContains c3 env.bundleId <;> simp [p1, p2, p3]
  · rw [hr] at h1
    simp [ignoreCode] at h1
    exact h1.symm
  · simp [run, hc]

/-- C3 witness. -/
theorem checkLegacy_spec_witness :
    checkLegacy
      { home := "/h", bundleId := "com.ms.code", applicationName := "code",
        sourcePath := "/app/bin/code", isAvailable := true,
        read1 := .ok "alias via com.ms.code", read2 := .error "ENOENT",
        read3 := .ok "plain", lstatIsSymlink := .ok true,
        readlinkRes := .ok "/app/bin/code", unlink1 := .ok (), symlink1 := .ok (),
        mkdirOk := true, unlink2 := .ok (), symlink2 := .ok () }
      = .ok ["/h/.bash_profile"] :=
  (checkLegacy_spec
    { home := "/h", bundleId := "com.ms.code", applicationName := "code",
      sourcePath := "/app/bin/code", isAvailable := true,
      read1 := .ok "alias via com.ms.code", read2 := .error "ENOENT",
      read3 := .ok "plain", lstatIsSymlink := .ok true,
      readlinkRes := .ok "/app/bin/code", unlink1 := .ok (), symlink1 := .ok (),
      mkdirOk := true, unlink2 := .ok (), symlink2 := .ok () }
    "alias via com.ms.code" "" "plain" rfl rfl rfl).1

/-- C2: with no legacy alias found, the bundled CLI source available and the
shortcut not installed, `run` installs by unlinking the target (`ENOENT`
treated as success) and then symlinking the bundled source there; when that
`createSymlink` attempt fails with `EACCES` or `ENOENT` it creates
`/usr/local/bin` with administrator privileges and retries the symlink
exactly once (the outcome of the retry is final), and any other error is
propagated as a rejection. -/
theorem installAction_run_spec (env : InstallEnv)
    (hleg : checkLegacy env = .ok [])
    (hav : env.isAvailable = true)
    (hins : isInstalled env = .ok false) :
    ((env.unlink1 = .ok () ∨ env.unlink1 = .error "ENOENT") →
       createSymlink env env.unlink1 env.symlink1 =
         (env.symlink1, [InstallEvent.unlinkTarget (target env),
                         InstallEvent.symlinkTarget env.sourcePath (target env)])) ∧
    (∀ ev1, createSymlink env env.unlink1 env.symlink1 = (.ok (), ev1) →
       run env = (.ok (), ev1 ++ [InstallEvent.infoSuccess])) ∧
    (∀ e ev1 ev2, createSymlink env env.unlink1 env.symlink1 = (.error e, ev1) →
       (e = "EACCES" ∨ e = "ENOENT") → env.mkdirOk = true →
       createSymlink env env.unlink2 env.symlink2 = (.ok (), ev2) →
       run env = (.ok (), ev1 ++ [InstallEvent.mkdirAdmin] ++ ev2 ++
                          [InstallEvent.infoSuccess])) ∧
    (∀ e ev1 e2 ev2, createSymlink env env.unlink1 env.symlink1 = (.error e, ev1) →
       (e = "EACCES" ∨ e = "ENOENT") → env.mkdirOk = true →
       createSymlink env env.unlink2 env.symlink2 = (.error e2, ev2) →
       run env = (.error (.fs e2), ev1 ++ [InstallEvent.mkdirAdmin] ++ ev2)) ∧
    (∀ e ev1, createSymlink env env.unlink1 env.symlink1 = (.error e, ev1) →
       e ≠ "EACCES" → e ≠ "ENOENT" →
       run env = (.error (.fs e), ev1)) := by
  refine ⟨fun hu => ?_, fun ev1 hcs => ?_, fun e ev1 ev2 hcs he hmk hcs2 => ?_,
          fun e ev1 e2 ev2 hcs he hmk hcs2 => ?_, fun e ev1 hcs he1 he2 => ?_⟩
  · rcases hu with hu | hu <;> simp [createSymlink, hu, ignoreCode]
  · simp [run, hleg, hins, hav, hcs]
  · simp [run, hleg, hins, hav, hcs, he, hmk, hcs2]
  · simp [run, hleg, hins, hav, hcs, he, hmk, hcs2]
  · simp [run, hleg, hins, hav, hcs, he1, he2]

/-- C2 witness: the first symlink attempt fails with `EACCES`, the bin folder
is created and the single retry succeeds. -/
theorem installAction_run_spec_witness :
    run
      { home := "/h", bundleId := "com.ms.code", applicationName := "code",
        sourcePath := "/app/bin/code", isAvailable := true,
        read1 := .ok "", read2 := .ok "", read3 := .ok "",
        lstatIsSymlink := .error "ENOENT", readlinkRes := .ok "",
        unlink1 := .error "ENOENT", symlink1 := .error "EACCES",
        mkdirOk := true, unlink2 := .ok (), symlink2 := .ok () }
      = (.ok (), [InstallEvent.unlinkTarget "/usr/local/bin/code",
                  InstallEvent.symlinkTarget "/app/bin/code" "/usr/local/bin/code",
                  InstallEvent.mkdirAdmin,
                  InstallEvent.unlinkTarget "/usr/local/bin/code",
                  InstallEvent.symlinkTarget "/app/bin/code" "/usr/local/bin/code",
                  InstallEvent.infoSuccess]) :=
  (installAction_run_spec
    { home := "/h", bundleId := "com.ms.code", applicationName := "code",
      sourcePath := "/app/bin/code", isAvailable := true,
      read1 := .ok "", read2 := .ok "", read3 := .ok "",
      lstatIsSymlink := .error "ENOENT", readlinkRes := .ok "",
      unlink1 := .error "ENOENT", symlink1 := .error "EACCES",
      mkdirOk := true, unlink2 := .ok (), symlink2 := .ok () }
    rfl rfl rfl).2.2.1 "EACCES"
    [InstallEvent.unlinkTarget "/usr/local/bin/code",
     InstallEvent.symlinkTarget "/app/bin/code" "/usr/local/bin/code"]
    [InstallEvent.unlinkTarget "/usr/local/bin/code",
     InstallEvent.symlinkTarget "/app/bin/code" "/usr/local/bin/code"]
    rfl (Or.inl rfl) rfl rfl

/-- C1: `ModeServiceImpl` creates at most one mode instance per mode id: an
already instantiated id is answered from the cache by both `_getOrCreateMode`
and `getMode`, with the state untouched; an id whose activation is pending is
answered with the same pending promise, with the state untouched; and a fresh
id (no compat mode) is instantiated during this first request, cached, and
every later `_getOrCreateMode` call returns that cached instance. -/
theorem modeService_single_instance {V : Type} (reg : String → Bool)
    (extract : String → List String) (st : ModeServiceState V) (id s : String)
    (hs : extract s = [id]) :
    (∀ m, lookupA st.instantiatedModes id = some m →
       getOrCreateModeById reg st id = (.resolved m, st) ∧
       getMode reg extract st s = (some m, st)) ∧
    (∀ p, lookupA st.instantiatedModes id = none →
       lookupA st.activationPromises id = some p →
       getOrCreateModeById reg st id = (.pending p, st)) ∧
    (lookupA st.instantiatedModes id = none →
       lookupA st.activationPromises id = none → reg id = false →
       ∃ f st1, getOrCreateModeById reg st id = (.resolved f, st1) ∧
         lookupA st1.instantiatedModes id = some f ∧
         getOrCreateModeById reg st1 id = (.resolved f, st1)) := by
  refine ⟨fun m hm => ⟨?_, ?_⟩, fun p h1 h2 => ?_, fun h1 h2 hreg => ?_⟩
  · simp [getOrCreateModeById, hm]
  · simp [getMode, hs, findFirstInstantiated, hm]
  · simp [getOrCreateModeById, h1, h2]
  · simp only [getOrCreateModeById, h1, h2, createMode, hreg, Bool.false_eq_true,
      if_false]
    refine ⟨_, _, rfl, ?_, ?_⟩
    · simp [lookupA_setA_self]
    · simp [getOrCreateModeById, lookupA_setA_self]

/-- C1 witness: a pending activation for mode id `a` (promise 7) is returned
untouched by a further `_getOrCreateMode` call. -/
theorem modeService_single_instance_witness :
    getOrCreateModeById (V := Nat) (fun _ => true)
      { activationPromises := [("a", 7)], instantiatedModes := [],
        frankensteinModes := [], config := [], nextPromiseId := 8,
        nextInstanceNum := 0 } "a"
      = (.pending 7,
         { activationPromises := [("a", 7)], instantiatedModes := [],
           frankensteinModes := [], config := [], nextPromiseId := 8,
           nextInstanceNum := 0 }) :=
  (modeService_single_instance (V := Nat) (fun _ => true) (fun _ => ["a"])
    { activationPromises := [("a", 7)], instantiatedModes := [],
      frankensteinModes := [], config := [], nextPromiseId := 8,
      nextInstanceNum := 0 } "a" "a" rfl).2.1 7 rfl rfl

/-- C5: for a mode id without a compat mode, `_createMode` yields the per-id
Frankenstein mode, created on first request by `_getOrCreateFrankensteinMode`
and reused unchanged on every later request; each support registration
attaches exactly one support fragment through `registerSupport`, and
registering on a mode without `registerSupport` attaches nothing and returns
the empty disposable. -/
theorem frankenstein_mode_assembly {V : Type} (reg : String → Bool)
    (st : ModeServiceState V) (id support : String) (m : Mode) :
    (reg id = false →
       createMode reg st id =
         (.immediate (getOrCreateFrankensteinMode st id).1,
          (getOrCreateFrankensteinMode st id).2)) ∧
    (getOrCreateFrankensteinMode (getOrCreateFrankensteinMode st id).2 id =
       ((getOrCreateFrankensteinMode st id).1, (getOrCreateFrankensteinMode st id).2)) ∧
    (m.hasRegisterSupport = true →
       registerSupportOnMode m support =
         ({ m with supports := m.supports ++ [support] }, .fragment support)) ∧
    (m.hasRegisterSupport = false →
       registerSupportOnMode m support = (m, .empty)) := by
  refine ⟨fun hreg => ?_, ?_, fun h => ?_, fun h => ?_⟩
  · simp [createMode, hreg]
  · cases hf : lookupA st.frankensteinModes id <;>
      simp [getOrCreateFrankensteinMode, hf, lookupA_setA_self]
  · simp [registerSupportOnMode, h]
  · simp [registerSupportOnMode, h]

/-- C5 witness: a mode without `registerSupport` gets nothing attached and
the empty disposable back. -/
theorem frankenstein_mode_assembly_witness :
    registerSupportOnMode
      { modeId := "css", instanceNum := 0, hasRegisterSupport := false,
        hasConfigSupport := false, supports := [] } "suggestSupport"
      = ({ modeId := "css", instanceNum := 0, hasRegisterSupport := false,
           hasConfigSupport := false, supports := [] }, .empty) :=
  (frankenstein_mode_assembly (V := Nat) (fun _ => false) (initialState Nat)
    "css" "suggestSupport"
    { modeId := "css", instanceNum := 0, hasRegisterSupport := false,
      hasConfigSupport := false, supports := [] }).2.2.2 rfl

/-- C9: `getOrCreateMode` and its by-language-name and by-filename variants
always resolve against some concrete mode id: when no id can be extracted
(no match, or an empty-string id), the `plaintext` mode id is used, otherwise
the first extracted id; and the request always yields a result — a promise
already resolved with a mode, or a pending activation promise. -/
theorem getOrCreateMode_never_fails {V : Type} (reg : String → Bool)
    (extract byLang byFile : String → List String) (st : ModeServiceState V)
    (s : String) :
    (extract s = [] →
       getOrCreateMode reg extract st s = getOrCreateModeById reg st "plaintext") ∧
    (byLang s = [] →
       getOrCreateModeByLanguageName reg byLang st s
         = getOrCreateModeById reg st "plaintext") ∧
    (byFile s = [] →
       getOrCreateModeByFilenameOrFirstLine reg byFile st s
         = getOrCreateModeById reg st "plaintext") ∧
    (∀ rest, extract s = "" :: rest →
       getOrCreateMode reg extract st s = getOrCreateModeById reg st "plaintext") ∧
    (∀ id rest, extract s = id :: rest → id ≠ "" →
       getOrCreateMode reg extract st s = getOrCreateModeById reg st id) ∧
    ((∃ m st1, getOrCreateMode reg extract st s = (.resolved m, st1)) ∨
     (∃ p st1, getOrCreateMode reg extract st s = (.pending p, st1))) := by
  refine ⟨fun h => ?_, fun h => ?_, fun h => ?_, fun rest h => ?_,
          fun id rest h hne => ?_, ?_⟩
  · simp [getOrCreateMode, effectiveModeId, getModeId, h]
  · simp [getOrCreateModeByLanguageName, effectiveModeId, getModeId, h]
  · simp [getOrCreateModeByFilenameOrFirstLine, effectiveModeId, getModeId, h]
  · simp [getOrCreateMode, effectiveModeId, getModeId, h]
  · simp [getOrCreateMode, effectiveModeId, getModeId, h, hne]
  · rcases hr : getOrCreateMode reg extract st s with ⟨r, st1⟩
    cases r with
    | resolved m => exact Or.inl ⟨m, st1, rfl⟩
    | pending p => exact Or.inr ⟨p, st1, rfl⟩

/-- C9 witness: an unrecognized input falls back to the `plaintext` mode. -/
theorem getOrCreateMode_never_fails_witness :
    getOrCreateMode (V := Nat) (fun _ => false) (fun _ => [])
      (initialState Nat) "application/x-unknown"
      = getOrCreateModeById (fun _ => false) (initialState Nat) "plaintext" :=
  (getOrCreateMode_never_fails (V := Nat) (fun _ => false) (fun _ => [])
    (fun _ => []) (fun _ => []) (initialState Nat) "application/x-unknown").1 rfl

/-- C10: `configureModeById` merges the given options over the previously
stored options for the mode id; when the merged result equals the previous
options the call is a no-op (state unchanged, `configSupport.configure` not
invoked); when it differs, the merged options are stored; and a second call
with the same options right after a first one is always a no-op. -/
theorem configureModeById_idempotent {V : Type} [DecidableEq V]
    (reg : String → Bool) (extract : String → List String)
    (st : ModeServiceState V) (modeId : String) (options : List (String × V)) :
    (equalsA ((lookupA st.config modeId).getD [])
        (mixin ((lookupA st.config modeId).getD []) options) = true →
       configureModeById reg extract st modeId options = (st, [])) ∧
    (equalsA ((lookupA st.config modeId).getD [])
        (mixin ((lookupA st.config modeId).getD []) options) = false →
       lookupA ((configureModeById reg extract st modeId options).1).config modeId
         = some (mixin ((lookupA st.config modeId).getD []) options)) ∧
    (configureModeById reg extract
        (configureModeById reg extract st modeId options).1 modeId options
      = ((configureModeById reg extract st modeId options).1, [])) := by
  have key : ∀ stX : ModeServiceState V,
      (lookupA stX.config modeId).getD []
          = mixin ((lookupA st.config modeId).getD []) options →
      configureModeById reg extract stX modeId options = (stX, []) := by
    intro stX hX
    have heq : equalsA ((lookupA stX.config modeId).getD [])
        (mixin ((lookupA stX.config modeId).getD []) options) = true := by
      rw [hX]
      exact equalsA_of_ext _ _ (fun k => (mixin_lookup_idem _ _ k).symm)
    simp [configureModeById, heq]
  have hstore : equalsA ((lookupA st.config modeId).getD [])
      (mixin ((lookupA st.config modeId).getD []) options) = false →
      lookupA ((configureModeById reg extract st modeId options).1).config modeId
        = some (mixin ((lookupA st.config modeId).getD []) options) := by
    intro h
    simp only [configureModeById, h, Bool.false_eq_true, if_false]
    have hc := getMode_config reg extract { st with config := setA st.config modeId (mixin ((lookupA st.config modeId).getD []) options) } modeId
    rcases hg : getMode reg extract { st with config := setA st.config modeId (mixin ((lookupA st.config modeId).getD []) options) } modeId with ⟨om, st2⟩
    rw [hg] at hc
    simp at hc
    cases om with
    | none => simp [hg, hc, lookupA_setA_self]
    | some mode =>
      by_cases hcs : mode.hasConfigSupport <;> simp [hg, hcs, hc, lookupA_setA_self]
  refine ⟨fun h => by simp [configureModeById, h], hstore, ?_⟩
  by_cases h : equalsA ((lookupA st.config modeId).getD [])
      (mixin ((lookupA st.config modeId).getD []) options) = true
  · have h1 : configureModeById reg extract st modeId options = (st, []) := by
      simp [configureModeById, h]
    rw [h1]
    exact h1
  · have h' : equalsA ((lookupA st.config modeId).getD [])
        (mixin ((lookupA st.config modeId).getD []) options) = false := by
      revert h
      cases equalsA ((lookupA st.config modeId).getD [])
        (mixin ((lookupA st.config modeId).getD []) options) <;> simp
    exact key _ (by rw [hstore h']; rfl)

/-- C10 witness: configuring mode `js` with options it already carries is a
no-op. -/
theorem configureModeById_idempotent_witness :
    configureModeById (V := Nat) (fun _ => false) (fun s => [s])
      { activationPromises := [], instantiatedModes := [],
        frankensteinModes := [], config := [("js", [("tabSize", 4)])],
        nextPromiseId := 0, nextInstanceNum := 0 } "js" [("tabSize", 4)]
      = ({ activationPromises := [], instantiatedModes := [],
           frankensteinModes := [], config := [("js", [("tabSize", 4)])],
           nextPromiseId := 0, nextInstanceNum := 0 }, []) :=
  (configureModeById_idempotent (V := Nat) (fun _ => false) (fun s => [s])
    { activationPromises := [], instantiatedModes := [],
      frankensteinModes := [], config := [("js", [("tabSize", 4)])],
      nextPromiseId := 0, nextInstanceNum := 0 } "js" [("tabSize", 4)]).1
    (by decide)

end Claims

end VSCode
